import Mathlib

/-!
Shallow embedding of the mission/step execution pipeline and trigger
condition evaluator of `src/database/db_utils.py` (class `DatabaseUtils`).

The relational storage is modelled as an explicit state (`DBState`) holding
the proposal, mission and step rows; each SQL statement becomes a pure
transformation of that state.  Timestamps are integers (seconds); `NOW()`
becomes an explicit `now` parameter.  JSON payloads are association lists of
`Value`s; Python's dynamic comparison operators (`<=`, `>=`, which raise
`TypeError` on e.g. a string/number pair) are modelled as `Option Bool`
(`none` = exception), and a raising evaluation propagates as `none` through
the condition checker and trigger evaluation, mirroring Python exception
propagation.
-/

/-- Step status column of `ops_mission_steps`. -/
inductive StepStatus
  | queued
  | running
  | succeeded
  | failed
deriving DecidableEq, Repr

/-- Mission status column of `ops_missions`. -/
inductive MissionStatus
  | running
  | succeeded
  | failed
deriving DecidableEq, Repr

/-- Proposal status column of `ops_trading_proposals`. -/
inductive ProposalStatus
  | pending
  | accepted
  | rejected
deriving DecidableEq, Repr

/-- A JSON-like scalar value as used in payloads, events and trigger
conditions.  Numbers are integers; the source's condition evaluator compares
them with Python `<=` / `>=` / `==`. -/
inductive Value
  | int (n : Int)
  | str (s : String)
  | bool (b : Bool)
deriving DecidableEq, Repr

/-- A JSON object (Python dict) with string keys, in insertion order. -/
abbrev Payload := List (String × Value)

/-- A row of `ops_mission_steps`. -/
structure Step where
  id : Nat
  missionId : Nat
  kind : String
  payload : Payload
  assignedTo : Option String
  status : StepStatus
  timeoutAt : Int
  result : Option Payload
  error : Option String
  createdAt : Int
  startedAt : Option Int
  completedAt : Option Int
deriving DecidableEq, Repr

/-- A row of `ops_missions`. -/
structure Mission where
  id : Nat
  title : String
  createdBy : String
  missionType : String
  proposalId : Option Nat
  metadata : List (String × String)
  status : MissionStatus
  createdAt : Int
  completedAt : Option Int
deriving DecidableEq, Repr

/-- One entry of a proposal's `proposed_steps` JSON array.  The fields are
optional because `create_mission_from_proposal` reads them with
`step.get(...)` defaults (`kind` defaults to `"analyze"`, `payload` to `{}`,
`assigned_to` to null). -/
structure StepTemplate where
  kind : Option String
  payload : Option Payload
  assignedTo : Option String
deriving DecidableEq, Repr

/-- A row of `ops_trading_proposals` (the columns the core touches). -/
structure Proposal where
  id : Nat
  agentId : String
  title : String
  signalType : String
  proposedSteps : List StepTemplate
  status : ProposalStatus
  createdAt : Int
  acceptedAt : Option Int
deriving DecidableEq, Repr

/-- The relational storage state touched by the mission/step pipeline. -/
structure DBState where
  proposals : List Proposal
  missions : List Mission
  steps : List Step
  nextId : Nat
deriving DecidableEq, Repr

/-! ## Step ledger: `claim_step` and `complete_step` -/

/-- Row predicate of `claim_step`'s UPDATE: `id = %s AND status =
'queued'`. -/
def claimPred (stepId : Nat) (st : Step) : Bool :=
  decide (st.id = stepId ∧ st.status = StepStatus.queued)

/-- The per-row update applied by `claim_step`'s UPDATE statement to
matching rows. -/
def claimUpd (stepId : Nat) (assignedTo : String) (now : Int) (st : Step) : Step :=
  if st.id = stepId ∧ st.status = StepStatus.queued then
    { st with status := StepStatus.running, assignedTo := some assignedTo,
              startedAt := some now }
  else st

/-- `claim_step`: `UPDATE ops_mission_steps SET status='running',
assigned_to=%s, started_at=NOW() WHERE id=%s AND status='queued'
RETURNING id`; returns `rowcount > 0` together with the updated state. -/
def claim_step (db : DBState) (stepId : Nat) (assignedTo : String) (now : Int) :
    Bool × DBState :=
  (decide (0 < db.steps.countP (claimPred stepId)),
   { db with steps := db.steps.map (claimUpd stepId assignedTo now) })

/-- The stored `result` column value: the source computes
`result_json = json.dumps(result_data) if result_data else None`, so both a
missing result and an empty dict (falsy in Python) store SQL NULL. -/
def storedResult : Option Payload → Option Payload
  | none => none
  | some d => if d.isEmpty then none else some d

/-- Python truthiness of the `error` argument in
`status = 'failed' if error else 'succeeded'`: None and the empty string
are falsy, so only a non-empty error message marks the step failed. -/
def errorTruthy : Option String → Bool
  | none => false
  | some s => decide (s ≠ "")

/-- Row predicate of `complete_step`'s UPDATE: `id = %s AND status =
'running'`. -/
def runningPred (stepId : Nat) (st : Step) : Bool :=
  decide (st.id = stepId ∧ st.status = StepStatus.running)

/-- The per-row update applied by `complete_step`'s UPDATE statement to rows
matching `id = stepId AND status = 'running'`. -/
def completeUpd (stepId : Nat) (newStatus : StepStatus) (stored : Option Payload)
    (error : Option String) (now : Int) (st : Step) : Step :=
  if st.id = stepId ∧ st.status = StepStatus.running then
    { st with status := newStatus, result := stored, error := error,
              completedAt := some now }
  else st

/-- Predicate for the mission's pending-step count
(`status IN ('queued','running')`). -/
def pendingPred (missionId : Nat) (st : Step) : Bool :=
  decide (st.missionId = missionId ∧
    (st.status = StepStatus.queued ∨ st.status = StepStatus.running))

/-- `complete_step`: updates the step row where `id=%s AND status='running'`
to `failed` (if a truthy — non-empty — error is given, per
`status = 'failed' if error else 'succeeded'`) or `succeeded`, recording
result, error and `completed_at`; returns false when no row matched.  On
success it counts the mission's remaining steps in `('queued','running')`
and, when zero, marks the mission `succeeded` with `completed_at = NOW()`
(the source sets `'succeeded'` unconditionally, whether or not any step
failed). -/
def complete_step (db : DBState) (stepId : Nat) (resultData : Option Payload)
    (error : Option String) (now : Int) : Bool × DBState :=
  let newStatus := if errorTruthy error then StepStatus.failed else StepStatus.succeeded
  let stored := storedResult resultData
  match db.steps.find? (runningPred stepId) with
  | none => (false, db)
  | some hit =>
    let steps' := db.steps.map (completeUpd stepId newStatus stored error now)
    let pending := steps'.countP (pendingPred hit.missionId)
    let missions' :=
      if pending = 0 then
        db.missions.map (fun m =>
          if m.id = hit.missionId then
            { m with status := MissionStatus.succeeded, completedAt := some now }
          else m)
      else db.missions
    (true, { db with steps := steps', missions := missions' })

/-! ## `get_queued_steps` (the spec's `list_claimable`) -/

/-- Row filter of `get_queued_steps`: `status = 'queued' AND timeout_at >
NOW()`, the inner `JOIN ops_missions m ON s.mission_id = m.id`, and the
optional `AND s.kind = %s` — the source guards the clause with `if kind:`,
Python truthiness, so both a missing kind and the empty string add no
filter.  The joined mission columns (`mission_title`, `created_by`) are
projection only, so the result keeps the step rows. -/
def queuedPred (db : DBState) (kind : Option String) (now : Int) (st : Step) : Bool :=
  decide (st.status = StepStatus.queued) &&
  decide (now < st.timeoutAt) &&
  db.missions.any (fun m => decide (m.id = st.missionId)) &&
  (match kind with
   | none => true
   | some k => if k = "" then true else decide (st.kind = k))

/-- `get_queued_steps`: filter as in `queuedPred`, `ORDER BY s.created_at
ASC`, `LIMIT %s`. -/
def get_queued_steps (db : DBState) (kind : Option String) (lim : Nat) (now : Int) :
    List Step :=
  ((db.steps.filter (queuedPred db kind now)).insertionSort
    (fun a b => a.createdAt ≤ b.createdAt)).take lim

/-! ## `create_mission_from_proposal` (the spec's `compile`) -/

/-- The step rows of `ops_mission_steps` carry a `timeout_at` column whose
default the inserts of `create_mission_from_proposal` rely on; the schema is
outside `src/`, so the default deadline is a fixed model constant (no claim
depends on its value). -/
def defaultTimeoutSecs : Int := 3600

/-- `SELECT ... FROM ops_trading_proposals WHERE id = %s AND status =
'accepted' FOR UPDATE`, `fetchone`. -/
def find_accepted_proposal (db : DBState) (proposalId : Nat) : Option Proposal :=
  db.proposals.find? (fun p => decide (p.id = proposalId ∧ p.status = ProposalStatus.accepted))

/-- The step row inserted for one template:
`INSERT INTO ops_mission_steps (mission_id, kind, payload, assigned_to)`
with `step.get('kind', 'analyze')`, `step.get('payload', {})`,
`step.get('assigned_to')`; the remaining columns take their schema defaults
(status queued, created_at NOW(), timeout deadline). -/
def stepFromTemplate (stepId missionId : Nat) (t : StepTemplate) (now : Int) : Step :=
  { id := stepId, missionId := missionId,
    kind := t.kind.getD "analyze",
    payload := t.payload.getD [],
    assignedTo := t.assignedTo,
    status := StepStatus.queued,
    timeoutAt := now + defaultTimeoutSecs,
    result := none, error := none,
    createdAt := now, startedAt := none, completedAt := none }

/-- The loop `for step in steps:` of step inserts, with storage-failure
injection: `failAt = some i` makes the i-th insert raise (modelling the
spec's `StorageUnavailableError` partway through the transaction). -/
def insertSteps (missionId : Nat) (now : Int) (failAt : Option Nat) :
    List StepTemplate → Nat → Nat → Except String (List Step)
  | [], _, _ => Except.ok []
  | t :: rest, stepId, idx =>
    if failAt = some idx then Except.error "storage failure"
    else (insertSteps missionId now failAt rest (stepId + 1) (idx + 1)).map
      (fun l => stepFromTemplate stepId missionId t now :: l)

/-- The mission row inserted by `create_mission_from_proposal`:
`INSERT INTO ops_missions (title, created_by, mission_type, proposal_id,
metadata) VALUES (%s, %s, 'entry', %s, %s::jsonb) RETURNING id`. -/
def missionFromProposal (missionId : Nat) (p : Proposal) (proposalId : Nat)
    (createdBy : String) (now : Int) : Mission :=
  { id := missionId, title := p.title, createdBy := createdBy,
    missionType := "entry", proposalId := some proposalId,
    metadata := [("source_proposal", toString proposalId),
                 ("original_agent", p.agentId),
                 ("signal_type", p.signalType)],
    status := MissionStatus.running, createdAt := now, completedAt := none }

/-- `create_mission_from_proposal`: `BEGIN`; select the proposal by id with
`status = 'accepted'` (raises `ValueError` when absent); insert the mission;
insert one step per template in order; set the proposal's status to
accepted with `accepted_at = NOW()`; `COMMIT`.  Any raise triggers
`ROLLBACK`, so the returned state on `Except.error` is the original state
unchanged. -/
def create_mission_from_proposal (db : DBState) (proposalId : Nat)
    (createdBy : String) (now : Int) (failAt : Option Nat) :
    Except String Nat × DBState :=
  match find_accepted_proposal db proposalId with
  | none => (Except.error "Proposal not found or not accepted", db)
  | some p =>
    let missionId := db.nextId
    match insertSteps missionId now failAt p.proposedSteps (missionId + 1) 0 with
    | Except.error e => (Except.error e, db)
    | Except.ok newSteps =>
      let proposals' := db.proposals.map (fun q =>
        if q.id = proposalId then
          { q with status := ProposalStatus.accepted, acceptedAt := some now }
        else q)
      (Except.ok missionId,
       { proposals := proposals',
         missions := db.missions ++ [missionFromProposal missionId p proposalId createdBy now],
         steps := db.steps ++ newSteps,
         nextId := missionId + 1 + p.proposedSteps.length })

/-! ## Condition matcher `_check_conditions` -/

/-- A condition entry: either a plain literal (exact-equality match) or an
operator sub-mapping such as `{"$gt": 50}`. -/
inductive Cond
  | lit (v : Value)
  | ops (l : List (String × Value))
deriving DecidableEq, Repr

/-- A condition tree: Python dict from field name to literal or operator
sub-mapping. -/
abbrev Conditions := List (String × Cond)

/-- An event record (`event_data`): Python dict from field name to value. -/
abbrev EventData := List (String × Value)

/-- Dict lookup (`key in event_data` / `event_data[key]`). -/
def lookup (ev : EventData) (k : String) : Option Value :=
  (ev.find? (fun p => decide (p.1 = k))).map Prod.snd

/-- Python `a <= b` on the value kinds the evaluator handles: defined on
number/number (booleans count as 0/1) and string/string pairs, a `TypeError`
(`none`) otherwise. -/
def pyLe : Value → Value → Option Bool
  | Value.int a, Value.int b => some (decide (a ≤ b))
  | Value.int a, Value.bool b => some (decide (a ≤ if b then 1 else 0))
  | Value.bool a, Value.int b => some (decide ((if a then 1 else 0 : Int) ≤ b))
  | Value.bool a, Value.bool b => some (decide ((if a then 1 else 0 : Int) ≤ if b then 1 else 0))
  | Value.str a, Value.str b => some (decide (a ≤ b))
  | _, _ => none

/-- Python `a < b`, same domain as `pyLe`. -/
def pyLt : Value → Value → Option Bool
  | Value.int a, Value.int b => some (decide (a < b))
  | Value.int a, Value.bool b => some (decide (a < if b then 1 else 0))
  | Value.bool a, Value.int b => some (decide ((if a then 1 else 0 : Int) < b))
  | Value.bool a, Value.bool b => some (decide ((if a then 1 else 0 : Int) < if b then 1 else 0))
  | Value.str a, Value.str b => some (decide (a < b))
  | _, _ => none

/-- Python `a == b`: total, numeric across int/bool (`True == 1`), `False`
on a type mismatch such as `1 == "1"`. -/
def pyEqB : Value → Value → Bool
  | Value.int a, Value.int b => decide (a = b)
  | Value.int a, Value.bool b => decide (a = if b then 1 else 0)
  | Value.bool a, Value.int b => decide ((if a then 1 else 0 : Int) = b)
  | Value.bool a, Value.bool b => decide (a = b)
  | Value.str a, Value.str b => decide (a = b)
  | _, _ => false

/-- The inner loop `for op, value in condition.items():` of
`_check_conditions` for one event value `v`.  `$gt` fails on
`event_data[key] <= value` (so it raises, `none`, exactly when `pyLe`
does); `$lt` fails on `event_data[key] >= value`, and on the handled value
kinds `a >= b` is `¬(a < b)`, so it passes exactly when `pyLt v w` is
`some true`; `$eq` fails on `!=`; any other operator name is ignored. -/
def checkOps (v : Value) : List (String × Value) → Option Bool
  | [] => some true
  | (op, w) :: rest =>
    if op = "$gt" then
      match pyLe v w with
      | none => none
      | some true => some false
      | some false => checkOps v rest
    else if op = "$lt" then
      match pyLt v w with
      | none => none
      | some false => some false
      | some true => checkOps v rest
    else if op = "$eq" then
      if pyEqB v w then checkOps v rest else some false
    else checkOps v rest

/-- `_check_conditions(event_data, conditions)`: iterate the condition dict;
keys absent from the event are skipped; a dict value runs the operator loop,
a plain literal requires `==`; returns `True` when no check failed.
`none` models a propagating `TypeError` from a Python comparison. -/
def checkConditions (ev : EventData) : Conditions → Option Bool
  | [] => some true
  | (k, c) :: rest =>
    match lookup ev k with
    | none => checkConditions ev rest
    | some v =>
      match c with
      | Cond.lit w => if pyEqB v w then checkConditions ev rest else some false
      | Cond.ops l =>
        match checkOps v l with
        | none => none
        | some false => some false
        | some true => checkConditions ev rest

/-! ## Trigger evaluation `evaluate_triggers` -/

/-- A row of `ops_trigger_rules`. -/
structure TriggerRule where
  id : Nat
  enabled : Bool
  triggerEvent : String
  conditions : Conditions
  cooldownMinutes : Int
  lastFiredAt : Option Int
deriving DecidableEq, Repr

/-- Cooldown clause of the SQL filter: `last_fired_at IS NULL OR
last_fired_at < NOW() - INTERVAL '1 minute' * cooldown_minutes` (time in
seconds, so the window is `60 * cooldown_minutes`). -/
def cooldownElapsed (tr : TriggerRule) (now : Int) : Bool :=
  match tr.lastFiredAt with
  | none => true
  | some t => decide (t < now - 60 * tr.cooldownMinutes)

/-- The SQL row filter of `evaluate_triggers`: `enabled = true`, cooldown
elapsed, and `trigger_event = %s` with the parameter
`event_data.get('event_type')` (equal only when that key holds the matching
string; a missing key binds SQL NULL, which matches no row). -/
def sqlTriggerFilter (rules : List TriggerRule) (ev : EventData) (now : Int) :
    List TriggerRule :=
  rules.filter (fun tr =>
    tr.enabled && cooldownElapsed tr now &&
    decide (lookup ev "event_type" = some (Value.str tr.triggerEvent)))

/-- The Python loop over fetched rows, collecting those whose conditions
match; a `TypeError` raised by `_check_conditions` aborts the whole call
(`none`). -/
def matchLoop (ev : EventData) : List TriggerRule → Option (List TriggerRule)
  | [] => some []
  | tr :: rest =>
    match checkConditions ev tr.conditions with
    | none => none
    | some b => (matchLoop ev rest).map (fun l => if b then tr :: l else l)

/-- `evaluate_triggers`: SQL filter then condition-match loop. -/
def evaluate_triggers (rules : List TriggerRule) (ev : EventData) (now : Int) :
    Option (List TriggerRule) :=
  matchLoop ev (sqlTriggerFilter rules ev now)

/-! ## Spec-side condition matcher (for the refinement claim about
`_check_conditions`) -/

/-- Python `a > b` as the spec reads it: the event value is strictly
greater, i.e. the condition value is strictly smaller. -/
def pyGt (v w : Value) : Option Bool := pyLt w v

/-- Modelled from the spec (§4.1 Condition Matcher), for comparison with
`checkConditions`: for each condition key present in the event, an operator
mapping requires every `$gt` entry to make the event value strictly
greater, every `$lt` entry strictly lesser, and every `$eq` entry exactly
equal; a plain literal requires exact equality; all checks across all keys
must hold. -/
def matchesSpec (ev : EventData) (conds : Conditions) : Prop :=
  ∀ p ∈ conds, ∀ v, lookup ev p.1 = some v →
    (match p.2 with
     | Cond.lit w => pyEqB v w = true
     | Cond.ops l => ∀ q ∈ l,
        (q.1 = "$gt" → pyGt v q.2 = some true) ∧
        (q.1 = "$lt" → pyLt v q.2 = some true) ∧
        (q.1 = "$eq" → pyEqB v q.2 = true))

/-- The steps produced by a failure-free run of the insert loop, with ids
allocated sequentially from `stepId`. -/
def compiledSteps (missionId : Nat) (now : Int) : List StepTemplate → Nat → List Step
  | [], _ => []
  | t :: rest, stepId =>
    stepFromTemplate stepId missionId t now :: compiledSteps missionId now rest (stepId + 1)

/-! ## Concrete fixtures used by counterexamples and witnesses -/

/-- A queued step (id 1, mission 0). -/
def stepQueued : Step :=
  { id := 1, missionId := 0, kind := "analyze", payload := [], assignedTo := none,
    status := StepStatus.queued, timeoutAt := 100, result := none, error := none,
    createdAt := 0, startedAt := none, completedAt := none }

/-- A running step (id 1, mission 0). -/
def stepRunning : Step :=
  { stepQueued with status := StepStatus.running, startedAt := some 1 }

/-- A second queued step of the same mission (id 2), created later. -/
def stepQueued2 : Step :=
  { stepQueued with id := 2, createdAt := 3 }

/-- A running mission (id 0). -/
def mission0 : Mission :=
  { id := 0, title := "BTC accumulation signal", createdBy := "sage",
    missionType := "entry", proposalId := some 3, metadata := [],
    status := MissionStatus.running, createdAt := 0, completedAt := none }

/-- Storage with one queued step. -/
def dbOneQueued : DBState :=
  { proposals := [], missions := [mission0], steps := [stepQueued], nextId := 10 }

/-- Storage with one running step, the last pending step of mission 0. -/
def dbOneRunning : DBState :=
  { proposals := [], missions := [mission0], steps := [stepRunning], nextId := 10 }

/-- Storage with a running step and a queued sibling. -/
def dbTwoSteps : DBState :=
  { proposals := [], missions := [mission0], steps := [stepRunning, stepQueued2], nextId := 10 }

/-- An accepted proposal (id 3) with two step templates. -/
def proposalAccepted : Proposal :=
  { id := 3, agentId := "intel", title := "BTC accumulation signal",
    signalType := "KOL_accumulation",
    proposedSteps :=
      [ { kind := some "analyze", payload := some [("depth", Value.int 2)],
          assignedTo := some "sage" },
        { kind := none, payload := none, assignedTo := none } ],
    status := ProposalStatus.accepted, createdAt := 0, acceptedAt := none }

/-- A pending proposal (id 4). -/
def proposalPending : Proposal :=
  { proposalAccepted with id := 4, status := ProposalStatus.pending }

/-- Storage holding both proposals. -/
def dbProposals : DBState :=
  { proposals := [proposalAccepted, proposalPending], missions := [], steps := [], nextId := 20 }

/-- An enabled trigger rule off cooldown. -/
def ruleOff : TriggerRule :=
  { id := 1, enabled := true, triggerEvent := "trade_closed",
    conditions := [("pnl", Cond.ops [("$gt", Value.int 10)])],
    cooldownMinutes := 5, lastFiredAt := none }

/-- The same rule, fired recently: inside its 300-second window at time
1000. -/
def ruleCooling : TriggerRule :=
  { ruleOff with id := 2, lastFiredAt := some 900 }

/-- The sample event record evaluated against the rules. -/
def sampleEvent : EventData :=
  [("event_type", Value.str "trade_closed"), ("pnl", Value.int 50)]

/-- Rule list holding both rules. -/
def sampleRules : List TriggerRule := [ruleOff, ruleCooling]

/-! ## Helper lemmas -/

/-- A map whose function fixes every element of the list is the identity. -/
theorem map_id_on {α : Type} (l : List α) (f : α → α) (h : ∀ x ∈ l, f x = x) :
    l.map f = l := by
  induction l with
  | nil => rfl
  | cons a t ih =>
    simp only [List.map_cons]
    rw [h a (List.mem_cons_self a t), ih (fun x hx => h x (List.mem_cons_of_mem a hx))]

/-! ## C10: empty result payload stores NULL -/

/-- C10: completing a running step with an empty mapping as result and no
error records a null result, indistinguishable from passing no result at
all: `complete_step` with `some []` equals `complete_step` with `none`, and
the stored column value is NULL. -/
theorem complete_step_empty_result (db : DBState) (s : Nat) (now : Int) :
    complete_step db s (some []) none now = complete_step db s none none now ∧
    storedResult (some []) = none := by
  constructor
  · rfl
  · rfl

/-! ## C8: missing condition keys are skipped -/

/-- C8: a key present in the condition tree but absent from the event never
fails the match — the entry is skipped — and in particular matching the
event `{"a": 1}` against the condition `{"b": 5}` yields true. -/
theorem check_conditions_missing_key (ev : EventData) (conds : Conditions)
    (k : String) (c : Cond) (h : lookup ev k = none) :
    checkConditions ev ((k, c) :: conds) = checkConditions ev conds ∧
    checkConditions [("a", Value.int 1)] [("b", Cond.lit (Value.int 5))] = some true := by
  constructor
  · simp only [checkConditions, h]
  · rfl

/-- Witness for `check_conditions_missing_key` at the event `{"a": 1}` and
condition `{"b": 5}`. -/
theorem check_conditions_missing_key_witness :
    lookup [("a", Value.int 1)] "b" = none ∧
    (checkConditions [("a", Value.int 1)] (("b", Cond.lit (Value.int 5)) :: []) =
        checkConditions [("a", Value.int 1)] [] ∧
     checkConditions [("a", Value.int 1)] [("b", Cond.lit (Value.int 5))] = some true) :=
  ⟨by decide,
   check_conditions_missing_key [("a", Value.int 1)] [] "b" (Cond.lit (Value.int 5)) (by decide)⟩
/-! ## C2: claiming is exclusive -/

/-- C2: once `claim_step` returns true for a step, any further claim on the
same step before a completion returns false; a successful claim moves the
queued step to running with assignee and start time; and when no queued
step with the id exists (already claimed, finished, or absent) the call
returns false with the state unchanged. -/
theorem claim_step_exclusive (db : DBState) (s : Nat) (a b : String) (now now2 : Int) :
    ((∃ st ∈ db.steps, st.id = s ∧ st.status = StepStatus.queued) →
      (claim_step db s a now).1 = true ∧
      (∀ st ∈ db.steps, st.id = s → st.status = StepStatus.queued →
        { st with status := StepStatus.running, assignedTo := some a,
                  startedAt := some now } ∈ (claim_step db s a now).2.steps) ∧
      claim_step (claim_step db s a now).2 s b now2 = (false, (claim_step db s a now).2)) ∧
    ((∀ st ∈ db.steps, st.id = s → st.status ≠ StepStatus.queued) →
      claim_step db s a now = (false, db)) := by
  constructor
  · rintro ⟨st, hmem, hid, hq⟩
    refine ⟨?_, ?_, ?_⟩
    · simp only [claim_step, decide_eq_true_eq, List.countP_pos_iff]
      exact ⟨st, hmem, by simp [claimPred, hid, hq]⟩
    · intro st' hmem' hid' hq'
      have hf : claimUpd s a now st' = { st' with status := StepStatus.running, assignedTo := some a, startedAt := some now } := by
        simp [claimUpd, hid', hq']
      simp only [claim_step]
      exact hf ▸ List.mem_map_of_mem _ hmem'
    · have hnone : ∀ st' ∈ (claim_step db s a now).2.steps, claimPred s st' = false := by
        intro st' hst'
        simp only [claim_step, List.mem_map] at hst'
        obtain ⟨st0, _, rfl⟩ := hst'
        by_cases hc : st0.id = s ∧ st0.status = StepStatus.queued
        · simp [claimUpd, claimPred, hc]
        · simp [claimUpd, claimPred, hc]
      have hcount : (claim_step db s a now).2.steps.countP (claimPred s) = 0 :=
        List.countP_eq_zero.mpr (by intro x hx; simp [hnone x hx])
      have hmap : (claim_step db s a now).2.steps.map (claimUpd s b now2)
          = (claim_step db s a now).2.steps :=
        map_id_on _ _ (by
          intro x hx
          have hx' := hnone x hx
          simp only [claimPred, decide_eq_false_iff_not] at hx'
          simp [claimUpd, hx'])
      show (decide (0 < (claim_step db s a now).2.steps.countP (claimPred s)), { (claim_step db s a now).2 with steps := (claim_step db s a now).2.steps.map (claimUpd s b now2) }) = (false, (claim_step db s a now).2)
      rw [hcount, hmap]
      rfl
  · intro h
    have hcount : db.steps.countP (claimPred s) = 0 := by
      apply List.countP_eq_zero.mpr
      intro x hx
      simp only [claimPred, decide_eq_true_eq]
      rintro ⟨h1, h2⟩
      exact h x hx h1 h2
    have hmap : db.steps.map (claimUpd s a now) = db.steps :=
      map_id_on _ _ (by
        intro x hx
        have hx' : ¬(x.id = s ∧ x.status = StepStatus.queued) := by
          rintro ⟨h1, h2⟩
          exact h x hx h1 h2
        simp [claimUpd, hx'])
    show (decide (0 < db.steps.countP (claimPred s)), { db with steps := db.steps.map (claimUpd s a now) }) = (false, db)
    rw [hcount, hmap]
    rfl

/-- Witness for `claim_step_exclusive` on the one-queued-step storage:
worker "sage" claims step 1, then worker "scout" fails to claim it. -/
theorem claim_step_exclusive_witness :
    (claim_step dbOneQueued 1 "sage" 2).1 = true ∧
    claim_step (claim_step dbOneQueued 1 "sage" 2).2 1 "scout" 3 =
      (false, (claim_step dbOneQueued 1 "sage" 2).2) :=
  ⟨((claim_step_exclusive dbOneQueued 1 "sage" "scout" 2 3).1
      ⟨stepQueued, by decide, by decide, by decide⟩).1,
   ((claim_step_exclusive dbOneQueued 1 "sage" "scout" 2 3).1
      ⟨stepQueued, by decide, by decide, by decide⟩).2.2⟩

/-! ## C3: completion semantics and idempotence -/

/-- When no step with the given id is running, `complete_step` returns
false and leaves the storage unchanged (shared helper). -/
theorem complete_step_of_no_running (db : DBState) (s : Nat) (r : Option Payload)
    (e : Option String) (now : Int)
    (h : ∀ st ∈ db.steps, st.id = s → st.status ≠ StepStatus.running) :
    complete_step db s r e now = (false, db) := by
  have hfind : db.steps.find? (runningPred s) = none := by
    apply List.find?_eq_none.mpr
    intro x hx
    simp only [runningPred, decide_eq_true_eq]
    rintro ⟨h1, h2⟩
    exact h x hx h1 h2
  simp only [complete_step, hfind]

/-- C3 counterexample: completing the running step with the empty-string
error; the claim reads an error as present, requiring the step to become
failed, but Python truthiness (`'failed' if error else 'succeeded'`) makes
the source mark it succeeded while still storing the empty error message. -/
theorem complete_step_empty_error_counterexample :
    (complete_step dbOneRunning 1 none (some "") 5).1 = true ∧
    (∀ st ∈ (complete_step dbOneRunning 1 none (some "") 5).2.steps,
      st.status = StepStatus.succeeded ∧ st.error = some "") ∧
    ¬(∃ st ∈ (complete_step dbOneRunning 1 none (some "") 5).2.steps,
      st.status = StepStatus.failed) := by
  decide

/-- C3 (amended): completing a running step moves it to failed when a
non-empty error is given and to succeeded otherwise (an absent or
empty-string error is falsy in the source's truthiness check), recording
result payload, error and completion time, and returns true; any second
completion of the same step returns false and changes nothing; and
completing a step that is not running (or absent) returns false with the
state unchanged. -/
theorem complete_step_spec (db : DBState) (s : Nat) (r : Option Payload)
    (e : Option String) (now : Int) :
    ((∃ st ∈ db.steps, st.id = s ∧ st.status = StepStatus.running) →
      (complete_step db s r e now).1 = true ∧
      (∀ st ∈ db.steps, st.id = s → st.status = StepStatus.running →
        { st with status := if errorTruthy e then StepStatus.failed else StepStatus.succeeded, result := storedResult r, error := e, completedAt := some now } ∈ (complete_step db s r e now).2.steps) ∧
      (∀ r2 e2 now2, complete_step (complete_step db s r e now).2 s r2 e2 now2 =
        (false, (complete_step db s r e now).2))) ∧
    ((∀ st ∈ db.steps, st.id = s → st.status ≠ StepStatus.running) →
      complete_step db s r e now = (false, db)) := by
  constructor
  · rintro ⟨st, hmem, hid, hr⟩
    have hsome : (db.steps.find? (runningPred s)).isSome := by
      rw [List.find?_isSome]
      exact ⟨st, hmem, by simp [runningPred, hid, hr]⟩
    obtain ⟨hit, hfind⟩ := Option.isSome_iff_exists.mp hsome
    refine ⟨?_, ?_, ?_⟩
    · simp only [complete_step, hfind]
    · intro st' hmem' hid' hr'
      have hf : completeUpd s (if errorTruthy e then StepStatus.failed else StepStatus.succeeded) (storedResult r) e now st' = { st' with status := if errorTruthy e then StepStatus.failed else StepStatus.succeeded, result := storedResult r, error := e, completedAt := some now } := by
        simp [completeUpd, hid', hr']
      simp only [complete_step, hfind]
      exact hf ▸ List.mem_map_of_mem _ hmem'
    · intro r2 e2 now2
      apply complete_step_of_no_running
      intro st' hst' hid'
      simp only [complete_step, hfind, List.mem_map] at hst'
      obtain ⟨st0, _, rfl⟩ := hst'
      by_cases hc : st0.id = s ∧ st0.status = StepStatus.running
      · simp only [completeUpd, if_pos hc]
        cases he : errorTruthy e <;> simp [he]
      · simp only [completeUpd, if_neg hc] at hid' ⊢
        exact fun hrun => hc ⟨hid', hrun⟩
  · intro h
    exact complete_step_of_no_running db s r e now h

/-- Witness for `complete_step_spec`: completing running step 1 succeeds,
and a duplicate completion returns false without changing the state. -/
theorem complete_step_spec_witness :
    (complete_step dbOneRunning 1 none none 5).1 = true ∧
    complete_step (complete_step dbOneRunning 1 none none 5).2 1 none none 6 =
      (false, (complete_step dbOneRunning 1 none none 5).2) :=
  ⟨((complete_step_spec dbOneRunning 1 none none 5).1
      ⟨stepRunning, by decide, by decide, by decide⟩).1,
   ((complete_step_spec dbOneRunning 1 none none 5).1
      ⟨stepRunning, by decide, by decide, by decide⟩).2.2 none none 6⟩

/-! ## C1: mission status on final completion -/

/-- C1 counterexample: in `dbOneRunning` the only step of mission 0 is
completed WITH an error, so the claim requires the mission to become
failed; the code instead marks every mission row succeeded and none
failed. -/
theorem mission_status_error_counterexample :
    (complete_step dbOneRunning 1 none (some "boom") 5).1 = true ∧
    (∀ st ∈ (complete_step dbOneRunning 1 none (some "boom") 5).2.steps,
      st.status = StepStatus.failed) ∧
    (∀ m ∈ (complete_step dbOneRunning 1 none (some "boom") 5).2.missions,
      m.status = MissionStatus.succeeded) ∧
    ¬(∃ m ∈ (complete_step dbOneRunning 1 none (some "boom") 5).2.missions,
      m.status = MissionStatus.failed) := by
  decide

/-- C1 (amended): when a successful completion leaves its mission with no
steps in queued or running, the code sets the mission status to succeeded
with the completion time — regardless of whether any completion carried an
error; no error ever makes the mission failed. -/
theorem complete_step_mission_succeeded (db : DBState) (s : Nat) (r : Option Payload)
    (e : Option String) (now : Int) (hit : Step)
    (hfind : db.steps.find? (runningPred s) = some hit)
    (hdone : (complete_step db s r e now).2.steps.countP (pendingPred hit.missionId) = 0) :
    (complete_step db s r e now).1 = true ∧
    (∀ m ∈ db.missions, m.id = hit.missionId →
      { m with status := MissionStatus.succeeded, completedAt := some now } ∈ (complete_step db s r e now).2.missions) := by
  constructor
  · simp only [complete_step, hfind]
  · intro m hm hmid
    simp only [complete_step, hfind] at hdone ⊢
    rw [if_pos hdone]
    exact List.mem_map.mpr ⟨m, hm, by rw [if_pos hmid]⟩

/-- Witness for `complete_step_mission_succeeded`: the lone step of mission
0 completes with an error and the mission row is marked succeeded. -/
theorem complete_step_mission_succeeded_witness :
    (complete_step dbOneRunning 1 none (some "x") 7).1 = true ∧
    { mission0 with status := MissionStatus.succeeded, completedAt := some 7 } ∈ (complete_step dbOneRunning 1 none (some "x") 7).2.missions :=
  ⟨(complete_step_mission_succeeded dbOneRunning 1 none (some "x") 7 stepRunning
      (by decide) (by decide)).1,
   (complete_step_mission_succeeded dbOneRunning 1 none (some "x") 7 stepRunning
      (by decide) (by decide)).2 mission0 (by decide) rfl⟩

/-! ## C4 and C9: compiling a proposal -/

/-- The insert loop without failure injection produces exactly the compiled
steps (shared helper). -/
theorem insertSteps_none_eq (missionId : Nat) (now : Int) :
    ∀ (ts : List StepTemplate) (stepId idx : Nat),
      insertSteps missionId now none ts stepId idx =
        Except.ok (compiledSteps missionId now ts stepId) := by
  intro ts
  induction ts with
  | nil => intro stepId idx; rfl
  | cons t rest ih =>
    intro stepId idx
    simp only [insertSteps, compiledSteps]
    rw [ih (stepId + 1) (idx + 1)]
    rfl

/-- An injected storage failure at a position inside the template list makes
the insert loop raise (shared helper). -/
theorem insertSteps_fails (missionId : Nat) (now : Int) (i : Nat) :
    ∀ (ts : List StepTemplate) (stepId idx : Nat), idx ≤ i → i - idx < ts.length →
      insertSteps missionId now (some i) ts stepId idx = Except.error "storage failure" := by
  intro ts
  induction ts with
  | nil =>
    intro stepId idx h1 h2
    simp at h2
  | cons t rest ih =>
    intro stepId idx h1 h2
    by_cases hie : i = idx
    · simp [insertSteps, hie]
    · have hlt : idx + 1 ≤ i := by omega
      have hlen : i - (idx + 1) < rest.length := by
        simp only [List.length_cons] at h2
        omega
      simp only [insertSteps]
      rw [if_neg (by simp [hie] : ¬(some i = some idx))]
      rw [ih (stepId + 1) (idx + 1) hlt hlen]
      rfl

/-- Field contents of the compiled steps: one step per template, in
template order, owned by the new mission, queued, with the source's
`get(...)` defaults (shared helper). -/
theorem compiledSteps_fields (missionId : Nat) (now : Int) :
    ∀ (ts : List StepTemplate) (stepId : Nat),
      (compiledSteps missionId now ts stepId).map (fun st => (st.kind, st.payload, st.assignedTo, st.status, st.missionId)) =
        ts.map (fun t => (t.kind.getD "analyze", t.payload.getD [], t.assignedTo, StepStatus.queued, missionId)) := by
  intro ts
  induction ts with
  | nil => intro stepId; rfl
  | cons t rest ih =>
    intro stepId
    simp only [compiledSteps, List.map_cons, ih]
    rfl

/-- C4: compiling a proposal that is not accepted (or absent) raises and
persists nothing — the returned state is the unchanged original; and a
storage failure partway through the step inserts rolls the whole
transaction back, leaving the state unchanged. -/
theorem create_mission_precondition (db : DBState) (pid : Nat) (cb : String)
    (now : Int) (failAt : Option Nat) :
    ((∀ q ∈ db.proposals, q.id = pid → q.status ≠ ProposalStatus.accepted) →
      create_mission_from_proposal db pid cb now failAt =
        (Except.error "Proposal not found or not accepted", db)) ∧
    (∀ p i, find_accepted_proposal db pid = some p → i < p.proposedSteps.length →
      (create_mission_from_proposal db pid cb now (some i)).2 = db ∧
      (create_mission_from_proposal db pid cb now (some i)).1 =
        Except.error "storage failure") := by
  constructor
  · intro h
    have hfind : find_accepted_proposal db pid = none := by
      apply List.find?_eq_none.mpr
      intro q hq
      simp only [decide_eq_true_eq]
      rintro ⟨h1, h2⟩
      exact h q hq h1 h2
    simp only [create_mission_from_proposal, hfind]
  · intro p i hfind hlen
    have hfail := insertSteps_fails db.nextId now i p.proposedSteps (db.nextId + 1) 0
      (Nat.zero_le i) (by simpa using hlen)
    constructor
    · simp only [create_mission_from_proposal, hfind, hfail]
    · simp only [create_mission_from_proposal, hfind, hfail]

/-- Witness for `create_mission_precondition`: compiling pending proposal 4
raises and leaves the storage unchanged; an injected storage failure during
the first step insert of accepted proposal 3 also leaves it unchanged. -/
theorem create_mission_precondition_witness :
    create_mission_from_proposal dbProposals 4 "boss" 9 none =
      (Except.error "Proposal not found or not accepted", dbProposals) ∧
    (create_mission_from_proposal dbProposals 3 "boss" 9 (some 0)).2 = dbProposals :=
  ⟨(create_mission_precondition dbProposals 4 "boss" 9 none).1 (by decide),
   ((create_mission_precondition dbProposals 3 "boss" 9 (some 0)).2 proposalAccepted 0
      (by decide) (by decide)).1⟩

/-- C9: compiling an accepted proposal returns the new mission id, appends
exactly one mission row, and appends exactly one step row per template,
whose order, kinds, payloads, assignees, queued status and owning mission
mirror the proposal's template order. -/
theorem create_mission_compiles (db : DBState) (pid : Nat) (cb : String) (now : Int)
    (p : Proposal) (hfind : find_accepted_proposal db pid = some p) :
    (create_mission_from_proposal db pid cb now none).1 = Except.ok db.nextId ∧
    (create_mission_from_proposal db pid cb now none).2.missions =
      db.missions ++ [missionFromProposal db.nextId p pid cb now] ∧
    (create_mission_from_proposal db pid cb now none).2.steps =
      db.steps ++ compiledSteps db.nextId now p.proposedSteps (db.nextId + 1) ∧
    (compiledSteps db.nextId now p.proposedSteps (db.nextId + 1)).map (fun st => (st.kind, st.payload, st.assignedTo, st.status, st.missionId)) =
      p.proposedSteps.map (fun t => (t.kind.getD "analyze", t.payload.getD [], t.assignedTo, StepStatus.queued, db.nextId)) := by
  have hins := insertSteps_none_eq db.nextId now p.proposedSteps (db.nextId + 1) 0
  refine ⟨?_, ?_, ?_, ?_⟩
  · simp only [create_mission_from_proposal, hfind, hins]
  · simp only [create_mission_from_proposal, hfind, hins]
  · simp only [create_mission_from_proposal, hfind, hins]
  · exact compiledSteps_fields db.nextId now p.proposedSteps (db.nextId + 1)

/-- Witness for `create_mission_compiles`: compiling accepted proposal 3
yields mission id 20 and appends its two compiled steps. -/
theorem create_mission_compiles_witness :
    (create_mission_from_proposal dbProposals 3 "boss" 9 none).1 =
      Except.ok dbProposals.nextId ∧
    (create_mission_from_proposal dbProposals 3 "boss" 9 none).2.steps =
      dbProposals.steps ++ compiledSteps dbProposals.nextId 9 proposalAccepted.proposedSteps (dbProposals.nextId + 1) :=
  ⟨(create_mission_compiles dbProposals 3 "boss" 9 proposalAccepted (by decide)).1,
   (create_mission_compiles dbProposals 3 "boss" 9 proposalAccepted (by decide)).2.2.1⟩

/-! ## C5: claimable-step listing -/

/-- C5 counterexample: called with the empty-string kind, the source's
`if kind:` guard adds no kind clause, so the queued "analyze" step is
returned even though its kind differs from the kind that was given — the
claim's kind filter fails at kind = some "". -/
theorem get_queued_steps_empty_kind_counterexample :
    stepQueued ∈ get_queued_steps dbOneQueued (some "") 5 1 ∧
    stepQueued.kind ≠ "" := by
  decide

/-- C5 (amended): every step returned by `get_queued_steps` is queued with
its timeout deadline still in the future and matches the kind filter when a
non-empty kind is given (the source's `if kind:` truthiness guard applies
no filter for the empty string); the rows come back in creation-time
ascending order; and at most `lim` rows are returned. -/
theorem get_queued_steps_spec (db : DBState) (kind : Option String) (lim : Nat) (now : Int) :
    (∀ st ∈ get_queued_steps db kind lim now,
      st.status = StepStatus.queued ∧ now < st.timeoutAt ∧
      (∀ k, kind = some k → k ≠ "" → st.kind = k)) ∧
    List.Pairwise (fun a b => a.createdAt ≤ b.createdAt) (get_queued_steps db kind lim now) ∧
    (get_queued_steps db kind lim now).length ≤ lim := by
  refine ⟨?_, ?_, ?_⟩
  · intro st hst
    have h1 : st ∈ (db.steps.filter (queuedPred db kind now)).insertionSort (fun a b => a.createdAt ≤ b.createdAt) :=
      List.take_subset _ _ hst
    have h2 : st ∈ db.steps.filter (queuedPred db kind now) :=
      (List.mem_insertionSort _).mp h1
    have hpred : queuedPred db kind now st = true := (List.mem_filter.mp h2).2
    simp only [queuedPred, Bool.and_eq_true, decide_eq_true_eq] at hpred
    refine ⟨hpred.1.1.1, hpred.1.1.2, ?_⟩
    intro k hk hkne
    subst hk
    have h4 : k = "" ∨ st.kind = k := by simpa using hpred.2
    exact h4.resolve_left hkne
  · have hs : List.Sorted (fun a b : Step => a.createdAt ≤ b.createdAt) ((db.steps.filter (queuedPred db kind now)).insertionSort (fun a b => a.createdAt ≤ b.createdAt)) := by
      haveI : IsTotal Step (fun a b : Step => a.createdAt ≤ b.createdAt) :=
        ⟨fun a b => le_total a.createdAt b.createdAt⟩
      haveI : IsTrans Step (fun a b : Step => a.createdAt ≤ b.createdAt) :=
        ⟨fun a b c hab hbc => le_trans hab hbc⟩
      exact List.sorted_insertionSort _ _
    exact hs.sublist (List.take_sublist _ _)
  · rw [get_queued_steps, List.length_take]
    exact min_le_left _ _

/-- Witness for `get_queued_steps_spec` on the two-step storage: the queued
step is listed as queued and the result respects the limit. -/
theorem get_queued_steps_spec_witness :
    stepQueued2.status = StepStatus.queued ∧
    (get_queued_steps dbTwoSteps none 5 1).length ≤ 5 :=
  ⟨((get_queued_steps_spec dbTwoSteps none 5 1).1 stepQueued2 (by decide)).1,
   (get_queued_steps_spec dbTwoSteps none 5 1).2.2⟩

/-! ## C6: trigger selection -/

/-- Membership in a successful match loop: a rule is collected exactly when
it was a candidate and its conditions evaluate to true (shared helper). -/
theorem matchLoop_mem (ev : EventData) :
    ∀ (l res : List TriggerRule), matchLoop ev l = some res →
      ∀ tr, tr ∈ res ↔ tr ∈ l ∧ checkConditions ev tr.conditions = some true := by
  intro l
  induction l with
  | nil =>
    intro res h tr
    simp only [matchLoop, Option.some.injEq] at h
    subst h
    simp
  | cons t rest ih =>
    intro res h tr
    simp only [matchLoop] at h
    cases hc : checkConditions ev t.conditions with
    | none =>
      rw [hc] at h
      exact absurd h (by simp)
    | some b =>
      rw [hc] at h
      cases hr : matchLoop ev rest with
      | none =>
        rw [hr] at h
        exact absurd h (by simp)
      | some res0 =>
        rw [hr] at h
        simp only [Option.map_some', Option.some.injEq] at h
        subst h
        cases b with
        | true =>
          simp only [if_pos]
          constructor
          · intro hmem
            rcases List.mem_cons.mp hmem with h1 | h0
            · subst h1
              exact ⟨List.mem_cons_self _ _, hc⟩
            · have h2 := (ih res0 hr tr).mp h0
              exact ⟨List.mem_cons_of_mem _ h2.1, h2.2⟩
          · rintro ⟨hmem, hcheck⟩
            rcases List.mem_cons.mp hmem with h1 | h0
            · subst h1
              exact List.mem_cons_self _ _
            · exact List.mem_cons_of_mem _ ((ih res0 hr tr).mpr ⟨h0, hcheck⟩)
        | false =>
          simp only [Bool.false_eq_true, if_false]
          constructor
          · intro h0
            have h2 := (ih res0 hr tr).mp h0
            exact ⟨List.mem_cons_of_mem _ h2.1, h2.2⟩
          · rintro ⟨hmem, hcheck⟩
            rcases List.mem_cons.mp hmem with h1 | h0
            · subst h1
              rw [hc] at hcheck
              exact absurd hcheck (by simp)
            · exact (ih res0 hr tr).mpr ⟨h0, hcheck⟩

/-- C6: when trigger evaluation completes, the returned rules are exactly
those that are enabled, listen for the event's kind, are off cooldown, and
whose condition tree matches the event; in particular a rule whose
`last_fired_at` lies inside its cooldown window is never returned. -/
theorem evaluate_triggers_spec (rules : List TriggerRule) (ev : EventData) (now : Int)
    (res : List TriggerRule) (h : evaluate_triggers rules ev now = some res) :
    (∀ tr, tr ∈ res ↔ tr ∈ rules ∧ tr.enabled = true ∧ cooldownElapsed tr now = true ∧
      lookup ev "event_type" = some (Value.str tr.triggerEvent) ∧
      checkConditions ev tr.conditions = some true) ∧
    (∀ tr ∈ rules, ∀ t, tr.lastFiredAt = some t → now - 60 * tr.cooldownMinutes ≤ t →
      tr ∉ res) := by
  have hmem := matchLoop_mem ev (sqlTriggerFilter rules ev now) res h
  constructor
  · intro tr
    rw [hmem tr]
    unfold sqlTriggerFilter
    rw [List.mem_filter]
    simp only [Bool.and_eq_true, decide_eq_true_eq]
    constructor
    · rintro ⟨⟨hmem0, ⟨hen, hcd⟩, hevt⟩, hchk⟩
      exact ⟨hmem0, hen, hcd, hevt, hchk⟩
    · rintro ⟨hmem0, hen, hcd, hevt, hchk⟩
      exact ⟨⟨hmem0, ⟨hen, hcd⟩, hevt⟩, hchk⟩
  · intro tr hmem0 t hlast hle hin
    have hfil := ((hmem tr).mp hin).1
    simp only [sqlTriggerFilter, List.mem_filter, Bool.and_eq_true] at hfil
    have hcd : cooldownElapsed tr now = true := hfil.2.1.2
    simp only [cooldownElapsed, hlast, decide_eq_true_eq] at hcd
    omega

/-- Witness for `evaluate_triggers_spec`: on the sample rules, the rule
fired 100 seconds ago (cooldown 300 seconds) is excluded from the result. -/
theorem evaluate_triggers_spec_witness :
    evaluate_triggers sampleRules sampleEvent 1000 = some [ruleOff] ∧
    ruleCooling ∉ [ruleOff] :=
  ⟨by decide,
   (evaluate_triggers_spec sampleRules sampleEvent 1000 [ruleOff] (by decide)).2
     ruleCooling (by decide) 900 (by decide) (by decide)⟩

/-! ## C7: operator semantics of the condition matcher -/

/-- `a <= b` is defined exactly when `b < a` is (same value kinds). -/
theorem pyLe_none_iff (v w : Value) : pyLe v w = none ↔ pyLt w v = none := by
  cases v <;> cases w <;> simp [pyLe, pyLt]

/-- On the handled value kinds, `a <= b` is false exactly when `b < a`. -/
theorem pyLe_false_iff (v w : Value) : pyLe v w = some false ↔ pyLt w v = some true := by
  cases v <;> cases w <;> simp [pyLe, pyLt, not_le]

/-- On the handled value kinds, `a <= b` is true exactly when `¬(b < a)`. -/
theorem pyLe_true_iff (v w : Value) : pyLe v w = some true ↔ pyLt w v = some false := by
  cases v <;> cases w <;> simp [pyLe, pyLt, not_lt]

/-- The operator loop accepts exactly when every recognised operator entry
holds in the spec's sense (shared helper). -/
theorem checkOps_true_iff (v : Value) :
    ∀ l : List (String × Value), checkOps v l = some true ↔
      ∀ q ∈ l, (q.1 = "$gt" → pyGt v q.2 = some true) ∧
               (q.1 = "$lt" → pyLt v q.2 = some true) ∧
               (q.1 = "$eq" → pyEqB v q.2 = true) := by
  intro l
  induction l with
  | nil => simp [checkOps]
  | cons q rest ih =>
    obtain ⟨op, w⟩ := q
    rw [List.forall_mem_cons]
    by_cases hgt : op = "$gt"
    · subst hgt
      simp only [checkOps, if_pos rfl]
      cases hle : pyLe v w with
      | none =>
        have hn : pyLt w v = none := (pyLe_none_iff v w).mp hle
        simp [pyGt, hn, (by decide : ("$gt" : String) ≠ "$lt"),
          (by decide : ("$gt" : String) ≠ "$eq")]
      | some b =>
        cases b with
        | true =>
          have hf : pyLt w v = some false := (pyLe_true_iff v w).mp hle
          simp [pyGt, hf, (by decide : ("$gt" : String) ≠ "$lt"),
            (by decide : ("$gt" : String) ≠ "$eq")]
        | false =>
          have ht : pyLt w v = some true := (pyLe_false_iff v w).mp hle
          simp [pyGt, ht, ih, (by decide : ("$gt" : String) ≠ "$lt"),
            (by decide : ("$gt" : String) ≠ "$eq")]
    · by_cases hlt : op = "$lt"
      · subst hlt
        simp only [checkOps, if_neg (by decide : ¬(("$lt" : String) = "$gt")), if_pos rfl]
        cases hlt2 : pyLt v w with
        | none =>
          simp [hlt2, (by decide : ("$lt" : String) ≠ "$gt"),
            (by decide : ("$lt" : String) ≠ "$eq")]
        | some b =>
          cases b with
          | false =>
            simp [hlt2, (by decide : ("$lt" : String) ≠ "$gt"),
              (by decide : ("$lt" : String) ≠ "$eq")]
          | true =>
            simp [hlt2, ih, (by decide : ("$lt" : String) ≠ "$gt"),
              (by decide : ("$lt" : String) ≠ "$eq")]
      · by_cases heq : op = "$eq"
        · subst heq
          simp only [checkOps, if_neg (by decide : ¬(("$eq" : String) = "$gt")),
            if_neg (by decide : ¬(("$eq" : String) = "$lt")), if_pos rfl]
          cases he : pyEqB v w with
          | false =>
            simp [he, (by decide : ("$eq" : String) ≠ "$gt"),
              (by decide : ("$eq" : String) ≠ "$lt")]
          | true =>
            simp [he, ih, (by decide : ("$eq" : String) ≠ "$gt"),
              (by decide : ("$eq" : String) ≠ "$lt")]
        · simp only [checkOps, if_neg hgt, if_neg hlt, if_neg heq]
          simp [hgt, hlt, heq, ih]

/-- Unfolding `matchesSpec` over the head condition entry (shared
helper). -/
theorem matchesSpec_cons (ev : EventData) (k : String) (c : Cond) (rest : Conditions) :
    matchesSpec ev ((k, c) :: rest) ↔
      (∀ v, lookup ev k = some v →
        (match c with
         | Cond.lit w => pyEqB v w = true
         | Cond.ops l => ∀ q ∈ l,
            (q.1 = "$gt" → pyGt v q.2 = some true) ∧
            (q.1 = "$lt" → pyLt v q.2 = some true) ∧
            (q.1 = "$eq" → pyEqB v q.2 = true))) ∧ matchesSpec ev rest := by
  unfold matchesSpec
  rw [List.forall_mem_cons]

/-- C7: `_check_conditions` returns true exactly when the spec's reading
holds: for every condition key present in the event, each `$gt` entry makes
the event value strictly greater, each `$lt` entry strictly lesser, each
`$eq` entry exactly equal, plain literals compare for exact equality, and
all checks across all keys must pass. -/
theorem check_conditions_matches_spec (ev : EventData) :
    ∀ conds : Conditions, checkConditions ev conds = some true ↔ matchesSpec ev conds := by
  intro conds
  induction conds with
  | nil =>
    simp only [checkConditions]
    unfold matchesSpec
    simp
  | cons p rest ih =>
    obtain ⟨k, c⟩ := p
    rw [matchesSpec_cons]
    cases hl : lookup ev k with
    | none =>
      simp only [checkConditions, hl]
      rw [ih]
      constructor
      · intro h
        exact ⟨fun v hv => absurd hv (by simp), h⟩
      · intro h
        exact h.2
    | some v =>
      simp only [checkConditions, hl]
      cases c with
      | lit w =>
        cases he : pyEqB v w with
        | true =>
          simp only [he, if_true, ih]
          constructor
          · intro h
            refine ⟨?_, h⟩
            intro v' hv'
            injection hv' with hv2
            subst hv2
            exact he
          · intro h
            exact h.2
        | false =>
          simp only [he, if_false]
          constructor
          · intro h
            exact absurd h (by simp)
          · rintro ⟨hhead, _⟩
            have h2 := hhead v rfl
            rw [he] at h2
            exact absurd h2 (by simp)
      | ops l =>
        cases ho : checkOps v l with
        | none =>
          simp only [ho]
          constructor
          · intro h
            exact absurd h (by simp)
          · rintro ⟨hhead, _⟩
            have h2 := (checkOps_true_iff v l).mpr (hhead v rfl)
            rw [ho] at h2
            exact absurd h2 (by simp)
        | some b =>
          cases b with
          | false =>
            simp only [ho]
            constructor
            · intro h
              exact absurd h (by simp)
            · rintro ⟨hhead, _⟩
              have h2 := (checkOps_true_iff v l).mpr (hhead v rfl)
              rw [ho] at h2
              exact absurd h2 (by simp)
          | true =>
            simp only [ho, ih]
            constructor
            · intro h
              refine ⟨?_, h⟩
              intro v' hv'
              injection hv' with hv2
              subst hv2
              exact (checkOps_true_iff v l).mp ho
            · intro h
              exact h.2

/-- Witness for `check_conditions_matches_spec`: the sample event matches
the condition `{"pnl": {"$gt": 10}}` in both readings. -/
theorem check_conditions_matches_spec_witness :
    matchesSpec sampleEvent [("pnl", Cond.ops [("$gt", Value.int 10)])] :=
  (check_conditions_matches_spec sampleEvent
    [("pnl", Cond.ops [("$gt", Value.int 10)])]).mp (by decide)
